import Mathlib

/-!
Verification of the structural-extraction core of `integration_test_helper.py`
(`IntegrationTestHelper.generate`).

The embedding models:
- the statement-level Python AST that the extractor inspects (`PyStmt` /
  `PyBody`), covering exactly the node kinds the code dispatches on
  (`ast.FunctionDef`, `ast.AsyncFunctionDef`, `ast.ClassDef`, `ast.Import`,
  `ast.ImportFrom`) plus a generic `other` compound statement for everything
  else that can hold nested statements;
- `ast.walk` (breadth-first traversal over all nodes, `astWalk`);
- the three per-file extraction loops over `ast.walk(tree)`
  (`extractFunctions`, `extractClasses`, `extractImports`);
- the per-file try/except with its diagnostic print (`processFile`), the
  loop over collected files (`extractLoop`), the path collection
  (`collect`, from `Path.is_file` / `Path.rglob`), the
  `output_path.mkdir(parents=True, exist_ok=True)` call (`mkdirParents`)
  and the final call into the external generator collaborator
  (`IntegrationTestHelper.generate`).

Reading a file and parsing it with `ast.parse` is modelled as a single
fallible step: a source file carries `Except String (List PyStmt)`, the
outcome of read-plus-parse (read errors and syntax errors land in the same
`except Exception` handler in the code, so they are indistinguishable to
the extractor).  The generator collaborator is opaque in the repository
(only `generators.integration_generator` is imported); it is modelled as an
abstract function parameter receiving the directory state at call time, the
model and the destination.
-/

/-- One name bound by an import statement: `ast.alias`, with the imported
dotted path `name` and the optional `as`-binding `asname`. -/
structure PyAlias where
  name : String
  asname : Option String
deriving Repr, DecidableEq

mutual

/-- Statement-level Python AST as seen by the extractor.  Only the node
kinds the isinstance-dispatch in the source looks at are distinguished;
`other` stands for any other statement (if/while/try/with/for, expression
statements, ...) together with every statement nested anywhere inside it,
so that `ast.walk` still reaches nested definitions. -/
inductive PyStmt : Type where
  | functionDef (name : String) (body : PyBody)
  | asyncFunctionDef (name : String) (body : PyBody)
  | classDef (name : String) (body : PyBody)
  | importStmt (names : List PyAlias)
  | importFrom (moduleName : Option String) (names : List PyAlias)
  | other (body : PyBody)
deriving DecidableEq

/-- Statement sequence (a `body` field of a compound statement). -/
inductive PyBody : Type where
  | nil
  | cons (head : PyStmt) (tail : PyBody)
deriving DecidableEq

end

/-- View of a statement sequence as a Lean list. -/
def PyBody.toList : PyBody → List PyStmt
  | .nil => []
  | .cons s r => s :: PyBody.toList r

mutual

/-- Number of AST nodes in a statement (used as the termination measure of
the breadth-first walk). -/
def PyStmt.size : PyStmt → Nat
  | .functionDef _ b => 1 + PyBody.size b
  | .asyncFunctionDef _ b => 1 + PyBody.size b
  | .classDef _ b => 1 + PyBody.size b
  | .importStmt _ => 1
  | .importFrom _ _ => 1
  | .other b => 1 + PyBody.size b

/-- Number of AST nodes in a statement sequence. -/
def PyBody.size : PyBody → Nat
  | .nil => 0
  | .cons s r => PyStmt.size s + PyBody.size r

end

/-- Child statements of a statement: what `ast.iter_child_nodes` yields at
statement level (import statements hold no nested statements). -/
def PyStmt.children : PyStmt → List PyStmt
  | .functionDef _ b => b.toList
  | .asyncFunctionDef _ b => b.toList
  | .classDef _ b => b.toList
  | .importStmt _ => []
  | .importFrom _ _ => []
  | .other b => b.toList

/-- Total node count of a worklist of statements. -/
def wsize (q : List PyStmt) : Nat := (q.map PyStmt.size).sum

theorem PyBody.wsize_toList : ∀ b : PyBody, wsize b.toList = PyBody.size b
  | .nil => by simp [PyBody.toList, PyBody.size, wsize]
  | .cons s r => by
    have ih := PyBody.wsize_toList r
    simp [PyBody.toList, PyBody.size, wsize] at *
    omega

theorem wsize_children_lt (s : PyStmt) : wsize s.children < PyStmt.size s := by
  cases s <;>
    simp [PyStmt.children, PyStmt.size, PyBody.wsize_toList, wsize] <;>
    first
    | rfl
    | (rename_i b
       have := PyBody.wsize_toList b
       simp [wsize] at this
       omega)

theorem wsize_append (a b : List PyStmt) : wsize (a ++ b) = wsize a + wsize b := by
  simp [wsize]

theorem wsize_flatMap_le (q : List PyStmt) :
    wsize (q.flatMap PyStmt.children) ≤ wsize q := by
  induction q with
  | nil => simp [wsize]
  | cons s r ih =>
    simp only [List.flatMap_cons, wsize_append]
    have h1 := wsize_children_lt s
    have h2 : wsize (s :: r) = PyStmt.size s + wsize r := by simp [wsize]
    omega

/-- Breadth-first traversal of every node reachable from the worklist:
`ast.walk` (a deque seeded with the root; each popped node is yielded and
its children are pushed).  `astWalk tree` is `ast.walk(Module(body=tree))`
minus the `Module` node itself, which matches none of the isinstance
checks in the source and so never produces a record. -/
def astWalk : List PyStmt → List PyStmt
  | [] => []
  | s :: rest => (s :: rest) ++ astWalk ((s :: rest).flatMap PyStmt.children)
termination_by q => wsize q
decreasing_by
  simp only [List.flatMap_cons, wsize_append]
  have h1 := wsize_children_lt s
  have h2 := wsize_flatMap_le rest
  have h3 : wsize (s :: rest) = PyStmt.size s + wsize rest := by simp [wsize]
  omega

/-- Function Record: the dict `{"name": node.name, "args": []}` appended
for each `ast.FunctionDef` met by the walk (`args` is built as a literal
empty list in the source and never filled). -/
structure FuncInfo where
  name : String
  args : List String
deriving Repr, DecidableEq

/-- Entry of a Class Record's `methods` list: the dict `{"name": item.name}`. -/
structure MethodInfo where
  name : String
deriving Repr, DecidableEq

/-- Class Record: the dict `{"name": node.name, "methods": [...]}`. -/
structure ClassInfo where
  name : String
  methods : List MethodInfo
deriving Repr, DecidableEq

/-- Import Record: the dict `{"module": ..., "name": ..., "type": ...}`. -/
structure ImportInfo where
  module : String
  name : String
  type : String
deriving Repr, DecidableEq

/-- Analysis Model: the `analysis` dict shared across all files. -/
structure Analysis where
  files : List String
  functions : List FuncInfo
  classes : List ClassInfo
  imports : List ImportInfo
deriving Repr, DecidableEq

/-- Initial Analysis Model
`{"files": [], "functions": [], "classes": [], "imports": []}`. -/
def emptyAnalysis : Analysis :=
  { files := [], functions := [], classes := [], imports := [] }

/-- Record produced for one walked node by the functions loop:
`if isinstance(node, ast.FunctionDef)` — note `ast.AsyncFunctionDef` is a
distinct class and does not match. -/
def funcRecordOf : PyStmt → Option FuncInfo
  | .functionDef n _ => some { name := n, args := [] }
  | _ => none

/-- First per-file loop: `for node in ast.walk(tree): if isinstance(node,
ast.FunctionDef): analysis["functions"].append({"name": node.name,
"args": []})`. -/
def extractFunctions (tree : List PyStmt) : List FuncInfo :=
  (astWalk tree).filterMap funcRecordOf

/-- Method entry produced for one direct body item of a class:
`if isinstance(item, ast.FunctionDef): ...append({"name": item.name})`. -/
def methodRecordOf : PyStmt → Option MethodInfo
  | .functionDef n _ => some { name := n }
  | _ => none

/-- Direct-body method scan of a class: `for item in node.body: if
isinstance(item, ast.FunctionDef): class_info["methods"].append({"name":
item.name})` — one level only, no recursion into nested statements. -/
def directMethods (body : PyBody) : List MethodInfo :=
  body.toList.filterMap methodRecordOf

/-- Record produced for one walked node by the classes loop. -/
def classRecordOf : PyStmt → Option ClassInfo
  | .classDef n b => some { name := n, methods := directMethods b }
  | _ => none

/-- Second per-file loop: `for node in ast.walk(tree): if isinstance(node,
ast.ClassDef): ...` with the direct-body method scan. -/
def extractClasses (tree : List PyStmt) : List ClassInfo :=
  (astWalk tree).filterMap classRecordOf

/-- Records produced for one walked node by the imports loop: for
`ast.Import`, one record per alias with `module = alias.name` and
`name = alias.asname or alias.name`; for `ast.ImportFrom`,
`module = node.module or ""` then `f"{module}.{alias.name}" if module
else alias.name`. -/
def importRecordsOf : PyStmt → List ImportInfo
  | .importStmt names =>
    names.map fun a =>
      { module := a.name, name := a.asname.getD a.name, type := "import" }
  | .importFrom moduleName names =>
    let m := moduleName.getD ""
    names.map fun a =>
      { module := if m = "" then a.name else m ++ "." ++ a.name,
        name := a.asname.getD a.name,
        type := "from_import" }
  | _ => []

/-- Third per-file loop: `for node in ast.walk(tree): if isinstance(node,
ast.Import): ... elif isinstance(node, ast.ImportFrom): ...`. -/
def extractImports (tree : List PyStmt) : List ImportInfo :=
  (astWalk tree).flatMap importRecordsOf

/-- One collected source file: its path together with the outcome of
`open(file_path).read()` followed by `ast.parse` (an `Except.error` covers
both a read failure and a syntax error, which land in the same handler). -/
structure SourceFile where
  path : String
  parsed : Except String (List PyStmt)

/-- Body of the per-file loop: on success all three walks append their
records to the shared model (nothing is ever appended to `files`); on
failure the `except` branch prints `f"Error parsing {file_path}: {e}"`
and the model is left untouched.  Returns the updated model and the
diagnostics printed for this file. -/
def processFile (analysis : Analysis) (file : SourceFile) :
    Analysis × List String :=
  match file.parsed with
  | .ok tree =>
    ({ analysis with
        functions := analysis.functions ++ extractFunctions tree
        classes := analysis.classes ++ extractClasses tree
        imports := analysis.imports ++ extractImports tree }, [])
  | .error e => (analysis, ["Error parsing " ++ file.path ++ ": " ++ e])

/-- The loop `for file_path in files:` threading the shared `analysis`
dict, collecting printed diagnostics in order. -/
def extractLoop : List SourceFile → Analysis → Analysis × List String
  | [], a => (a, [])
  | f :: rest, a =>
    let step := processFile a f
    let restResult := extractLoop rest step.1
    (restResult.1, step.2 ++ restResult.2)

/-- Whole extraction phase starting from the freshly initialised model. -/
def extractAll (files : List SourceFile) : Analysis × List String :=
  extractLoop files emptyAnalysis

/-- Filesystem as the extractor observes it: the `.py` regular files in
deterministic traversal order, each with its read-plus-parse outcome. -/
structure FS where
  pyFiles : List (String × Except String (List PyStmt))

/-- Path test `source_path.is_file()` — `False` (no exception) when the
path does not exist. -/
def FS.isFile (fs : FS) (p : String) : Bool :=
  fs.pyFiles.any fun q => q.1 == p

/-- Outcome of `open(p).read()` + `ast.parse` for a path. -/
def FS.readParse (fs : FS) (p : String) : Except String (List PyStmt) :=
  match fs.pyFiles.find? (fun q => q.1 == p) with
  | some q => q.2
  | none => Except.error "No such file or directory"

/-- Source collection: `files = [source_path] if source_path.is_file()
else list(source_path.rglob("*.py"))`.  `Path.rglob` raises nothing for a
nonexistent path: pathlib's selector first checks `is_dir` on the anchor
and yields nothing when it is not a directory, so a path that is neither
a file nor a directory collects to the empty list. -/
def collect (fs : FS) (sourcePath : String) : List String :=
  if fs.isFile sourcePath then [sourcePath]
  else (fs.pyFiles.map Prod.fst).filter fun p =>
    p.startsWith (sourcePath ++ "/")

/-- Effect of `output_path.mkdir(parents=True, exist_ok=True)` on the set
of existing directories: ensures the output path exists, never fails. -/
def mkdirParents (dirs : List String) (p : String) : List String :=
  if p ∈ dirs then dirs else dirs ++ [p]

/-- Signature of the opaque generator collaborator
(`generators.integration_generator.IntegrationTestGenerator.generate`):
it runs against the directory state left by the core's own `mkdir` call
and receives the completed model and the destination. -/
def GeneratorFn : Type :=
  List String → Analysis → String → List String

/-- Everything observable about one call to
`IntegrationTestHelper.generate`. -/
structure RunResult where
  analysis : Analysis
  diagnostics : List String
  dirsAfterMkdir : List String
  generated : List String

/-- Top-level `IntegrationTestHelper.generate(source_path, output_path)`:
collect the paths, run the extraction loop, create the output directory
(`mkdir(parents=True, exist_ok=True)` precedes the generator call, so the
generator runs against `dirsAfterMkdir`), call the generator, and return
its artifact list. -/
def IntegrationTestHelper.generate (gen : GeneratorFn) (fs : FS)
    (dirs : List String) (sourcePath outputPath : String) : RunResult :=
  let files := collect fs sourcePath
  let result := extractLoop (files.map fun p => ⟨p, fs.readParse p⟩) emptyAnalysis
  let dirsAfterMkdir := mkdirParents dirs outputPath
  let generated := gen dirsAfterMkdir result.1 outputPath
  { analysis := result.1, diagnostics := result.2,
    dirsAfterMkdir := dirsAfterMkdir, generated := generated }

mutual

/-- Number of plain (non-async) function definitions anywhere in a
statement, at any nesting depth — the N of the counting property. -/
def PyStmt.countFnDefs : PyStmt → Nat
  | .functionDef _ b => 1 + PyBody.countFnDefs b
  | .asyncFunctionDef _ b => PyBody.countFnDefs b
  | .classDef _ b => PyBody.countFnDefs b
  | .importStmt _ => 0
  | .importFrom _ _ => 0
  | .other b => PyBody.countFnDefs b

/-- Number of plain function definitions anywhere in a statement sequence. -/
def PyBody.countFnDefs : PyBody → Nat
  | .nil => 0
  | .cons s r => PyStmt.countFnDefs s + PyBody.countFnDefs r

end

/-- Recogniser for `isinstance(node, ast.FunctionDef)`. -/
def isFunctionDef : PyStmt → Bool
  | .functionDef _ _ => true
  | _ => false

/-- Concrete stub standing in for the external generator in closed
evaluations. -/
def genStub : GeneratorFn :=
  fun _ _ dest => [dest ++ "/test_integration.py"]

/-- Concrete class body `def m(self): def g(): pass` — one direct method
`m` holding a nested function `g`. -/
def exampleClassBody : PyBody :=
  .cons (.functionDef "m" (.cons (.functionDef "g" .nil) .nil)) .nil

/-- Concrete module `class C:` with `exampleClassBody`. -/
def exampleModule : List PyStmt :=
  [.classDef "C" exampleClassBody]

/-- Concrete successfully-parsed source file used by witnesses. -/
def exampleFile : SourceFile :=
  ⟨"a.py", .ok [.functionDef "f" .nil]⟩

/-! ## Helper lemmas about the walk and the counters -/

theorem PyBody.countFnDefs_toList : ∀ b : PyBody,
    PyBody.countFnDefs b = (b.toList.map PyStmt.countFnDefs).sum
  | .nil => by simp [PyBody.toList, PyBody.countFnDefs]
  | .cons s r => by
    have ih := PyBody.countFnDefs_toList r
    simp [PyBody.toList, PyBody.countFnDefs, ih]

theorem countFnDefs_children (s : PyStmt) :
    PyStmt.countFnDefs s =
      (if isFunctionDef s then 1 else 0) +
        ((s.children).map PyStmt.countFnDefs).sum := by
  cases s <;>
    simp [PyStmt.countFnDefs, PyStmt.children, isFunctionDef,
      PyBody.countFnDefs_toList]

theorem sum_countFnDefs_step (q : List PyStmt) :
    (q.map PyStmt.countFnDefs).sum =
      q.countP isFunctionDef +
        ((q.flatMap PyStmt.children).map PyStmt.countFnDefs).sum := by
  induction q with
  | nil => simp
  | cons s r ih =>
    have hs := countFnDefs_children s
    simp only [List.map_cons, List.sum_cons, List.countP_cons,
      List.flatMap_cons, List.map_append, List.sum_append]
    cases hif : isFunctionDef s <;> simp [hif] at hs ⊢ <;> omega

theorem wsize_flatMap_lt (s : PyStmt) (rest : List PyStmt) :
    wsize ((s :: rest).flatMap PyStmt.children) < wsize (s :: rest) := by
  simp only [List.flatMap_cons, wsize_append]
  have h1 := wsize_children_lt s
  have h2 := wsize_flatMap_le rest
  have h3 : wsize (s :: rest) = PyStmt.size s + wsize rest := by simp [wsize]
  omega

theorem astWalk_countP : ∀ (n : Nat) (q : List PyStmt), wsize q ≤ n →
    (astWalk q).countP isFunctionDef = (q.map PyStmt.countFnDefs).sum
  | _, [], _ => by simp [astWalk]
  | 0, s :: rest, h => by
    exfalso
    have h1 := wsize_children_lt s
    have h3 : wsize (s :: rest) = PyStmt.size s + wsize rest := by simp [wsize]
    omega
  | n + 1, s :: rest, h => by
    have hlt := wsize_flatMap_lt s rest
    have ih := astWalk_countP n ((s :: rest).flatMap PyStmt.children) (by omega)
    simp only [astWalk, List.countP_append, ih]
    exact (sum_countFnDefs_step (s :: rest)).symm

theorem length_filterMap_funcRecordOf (l : List PyStmt) :
    (l.filterMap funcRecordOf).length = l.countP isFunctionDef := by
  induction l with
  | nil => simp
  | cons s r ih =>
    cases s <;>
      simp [funcRecordOf, isFunctionDef, List.countP_cons,
        List.filterMap_cons, ih]

theorem length_extractFunctions (tree : List PyStmt) :
    (extractFunctions tree).length = (tree.map PyStmt.countFnDefs).sum := by
  unfold extractFunctions
  rw [length_filterMap_funcRecordOf, astWalk_countP (wsize tree) tree le_rfl]

theorem length_filterMap_methodRecordOf (l : List PyStmt) :
    (l.filterMap methodRecordOf).length = l.countP isFunctionDef := by
  induction l with
  | nil => simp
  | cons s r ih =>
    cases s <;>
      simp [methodRecordOf, isFunctionDef, List.countP_cons,
        List.filterMap_cons, ih]

theorem astWalk_cons_childless (s : PyStmt) (rest : List PyStmt)
    (h : PyStmt.children s = []) : astWalk (s :: rest) = s :: astWalk rest := by
  cases rest with
  | nil => simp [astWalk, h]
  | cons r rs => simp [astWalk, h]

theorem extractImports_cons_childless (s : PyStmt) (rest : List PyStmt)
    (h : PyStmt.children s = []) :
    extractImports (s :: rest) = importRecordsOf s ++ extractImports rest := by
  unfold extractImports
  rw [astWalk_cons_childless s rest h]
  simp [List.flatMap_cons]

theorem extractLoop_append (xs ys : List SourceFile) (a : Analysis) :
    extractLoop (xs ++ ys) a =
      ((extractLoop ys (extractLoop xs a).1).1,
        (extractLoop xs a).2 ++ (extractLoop ys (extractLoop xs a).1).2) := by
  induction xs generalizing a with
  | nil => simp [extractLoop]
  | cons f r ih =>
    simp only [List.cons_append, extractLoop, List.append_eq]
    rw [ih]
    simp [List.append_assoc]

theorem extractLoop_logs_indep (files : List SourceFile) (a b : Analysis) :
    (extractLoop files a).2 = (extractLoop files b).2 := by
  induction files generalizing a b with
  | nil => rfl
  | cons f r ih =>
    simp only [extractLoop]
    have hsnd : (processFile a f).2 = (processFile b f).2 := by
      cases hf : f.parsed <;> simp [processFile, hf]
    rw [hsnd, ih (processFile a f).1 (processFile b f).1]

/-! ## Claim theorems -/

/-- C2: for every successfully parsed source file whose tree contains N
plain function definitions at any nesting level (top-level, nested, or
methods), the per-file step appends exactly N Function Records to the
model's `functions` sequence — one per definition, regardless of depth. -/
theorem functions_one_record_per_def (a : Analysis) (p : String)
    (tree : List PyStmt) :
    ((processFile a ⟨p, Except.ok tree⟩).1).functions =
      a.functions ++ extractFunctions tree ∧
    (extractFunctions tree).length = (tree.map PyStmt.countFnDefs).sum :=
  ⟨by simp [processFile], length_extractFunctions tree⟩

/-- C3: every class-definition node met by the walk yields a Class Record
whose `methods` are exactly the direct-body plain function definitions
(as many entries as direct-body defs, each coming from a direct-body
def), while every function-definition node anywhere in the tree — in
particular one nested inside a method — still yields a record in the
model's `functions` list. -/
theorem class_methods_direct_body_only (tree : List PyStmt) (c : String)
    (b : PyBody) (hmem : PyStmt.classDef c b ∈ astWalk tree) :
    ClassInfo.mk c (directMethods b) ∈ extractClasses tree ∧
    (directMethods b).length = b.toList.countP isFunctionDef ∧
    (∀ m ∈ directMethods b, ∃ fb, PyStmt.functionDef m.name fb ∈ b.toList) ∧
    (∀ f fb, PyStmt.functionDef f fb ∈ astWalk tree →
      FuncInfo.mk f [] ∈ extractFunctions tree) := by
  refine ⟨?_, ?_, ?_, ?_⟩
  · exact List.mem_filterMap.mpr ⟨PyStmt.classDef c b, hmem, rfl⟩
  · exact length_filterMap_methodRecordOf b.toList
  · intro m hm
    unfold directMethods at hm
    obtain ⟨s, hs, hrec⟩ := List.mem_filterMap.mp hm
    cases m with
    | mk mn =>
      cases s with
      | functionDef n fb =>
        simp [methodRecordOf] at hrec
        subst hrec
        exact ⟨fb, hs⟩
      | asyncFunctionDef n fb => simp [methodRecordOf] at hrec
      | classDef n fb => simp [methodRecordOf] at hrec
      | importStmt ns => simp [methodRecordOf] at hrec
      | importFrom mo ns => simp [methodRecordOf] at hrec
      | other fb => simp [methodRecordOf] at hrec
  · intro f fb hf
    exact List.mem_filterMap.mpr ⟨PyStmt.functionDef f fb, hf, rfl⟩

/-- Witness for C3 at a concrete module `class C:` with one direct method
`m` holding a nested function `g`. -/
theorem class_methods_direct_body_only_witness :
    (PyStmt.classDef "C" exampleClassBody ∈ astWalk exampleModule) ∧
    (ClassInfo.mk "C" (directMethods exampleClassBody) ∈
        extractClasses exampleModule ∧
      (directMethods exampleClassBody).length =
        exampleClassBody.toList.countP isFunctionDef ∧
      (∀ m ∈ directMethods exampleClassBody,
        ∃ fb, PyStmt.functionDef m.name fb ∈ exampleClassBody.toList) ∧
      (∀ f fb, PyStmt.functionDef f fb ∈ astWalk exampleModule →
        FuncInfo.mk f [] ∈ extractFunctions exampleModule)) := by
  have hmem : PyStmt.classDef "C" exampleClassBody ∈ astWalk exampleModule := by
    simp [exampleModule, exampleClassBody, astWalk, PyStmt.children,
      PyBody.toList]
  exact ⟨hmem,
    class_methods_direct_body_only exampleModule "C" exampleClassBody hmem⟩

/-- C4: a plain import statement contributes one Import Record per
imported name, with `type = "import"`, `module` the imported dotted path
and `name` the bound alias or the path itself; in particular `import os`
yields `{module: "os", name: "os", type: "import"}`. -/
theorem plain_import_records (ns : List PyAlias) (rest : List PyStmt) :
    extractImports (PyStmt.importStmt ns :: rest) =
      ns.map (fun a => ImportInfo.mk a.name (a.asname.getD a.name) "import")
        ++ extractImports rest ∧
    extractImports [PyStmt.importStmt [⟨"os", none⟩]] =
      [ImportInfo.mk "os" "os" "import"] := by
  constructor
  · rw [extractImports_cons_childless (PyStmt.importStmt ns) rest rfl]
    rfl
  · rw [extractImports_cons_childless (PyStmt.importStmt [⟨"os", none⟩]) [] rfl]
    simp [extractImports, astWalk, importRecordsOf]

/-- C5: a from-import statement contributes one Import Record per
imported name, with `type = "from_import"`, `module` synthesized as
`"<source_module>.<imported_name>"` (or just the imported name when the
source module is empty, as for a bare relative import) and `name` the
bound alias or the imported name; in particular
`from collections import OrderedDict as OD` yields
`{module: "collections.OrderedDict", name: "OD", type: "from_import"}`. -/
theorem from_import_records (m : Option String) (ns : List PyAlias)
    (rest : List PyStmt) :
    extractImports (PyStmt.importFrom m ns :: rest) =
      ns.map (fun a =>
        ImportInfo.mk
          (if m.getD "" = "" then a.name else m.getD "" ++ "." ++ a.name)
          (a.asname.getD a.name) "from_import")
        ++ extractImports rest ∧
    extractImports
        [PyStmt.importFrom (some "collections") [⟨"OrderedDict", some "OD"⟩]] =
      [ImportInfo.mk "collections.OrderedDict" "OD" "from_import"] ∧
    extractImports [PyStmt.importFrom none [⟨"x", none⟩]] =
      [ImportInfo.mk "x" "x" "from_import"] := by
  refine ⟨?_, ?_, ?_⟩
  · rw [extractImports_cons_childless (PyStmt.importFrom m ns) rest rfl]
    rfl
  · rw [extractImports_cons_childless
      (PyStmt.importFrom (some "collections") [⟨"OrderedDict", some "OD"⟩]) [] rfl]
    simp [extractImports, astWalk, importRecordsOf]
  · rw [extractImports_cons_childless (PyStmt.importFrom none [⟨"x", none⟩]) [] rfl]
    simp [extractImports, astWalk, importRecordsOf]

/-- C6: a read or parse failure on one file is non-fatal and fully
isolated: the run with the failing file produces exactly the same
Analysis Model as the run without it (prior files' records are retained,
subsequent files are still processed, the failing file contributes no
records), and its diagnostics are the prior files' diagnostics, then
exactly one line naming the file and the cause, then the later files'
diagnostics. -/
theorem per_file_failure_isolated (pre post : List SourceFile)
    (p e : String) :
    (extractAll (pre ++ ⟨p, Except.error e⟩ :: post)).1 =
      (extractAll (pre ++ post)).1 ∧
    (extractAll (pre ++ ⟨p, Except.error e⟩ :: post)).2 =
      (extractAll pre).2 ++
        ("Error parsing " ++ p ++ ": " ++ e) :: (extractAll post).2 := by
  unfold extractAll
  rw [extractLoop_append pre (⟨p, Except.error e⟩ :: post) emptyAnalysis,
    extractLoop_append pre post emptyAnalysis]
  simp only [extractLoop, processFile]
  constructor
  · trivial
  · simp [extractLoop_logs_indep post
      (extractLoop pre emptyAnalysis).1 emptyAnalysis]

/-- C9: extraction is deterministic — two runs over the same ordered
sequence of files with unchanged read/parse outcomes produce structurally
identical Analysis Models and diagnostics (the embedding of the loop is a
pure function of that sequence: the code consults no clock, randomness or
other ambient state). -/
theorem extraction_deterministic (files1 files2 : List SourceFile)
    (h : files1 = files2) : extractAll files1 = extractAll files2 := by
  rw [h]

/-- Witness for C9 at a concrete one-file input. -/
theorem extraction_deterministic_witness :
    [exampleFile] = [exampleFile] ∧
    extractAll [exampleFile] = extractAll [exampleFile] :=
  ⟨rfl, extraction_deterministic [exampleFile] [exampleFile] rfl⟩

/-- C10: async function definitions are never captured: an
`async def` node contributes no Function Record itself (only its body's
contents and the surrounding statements contribute), and an `async def`
sitting directly in a class body contributes no entry to that class's
`methods` list. -/
theorem async_defs_not_captured (n : String) (b : PyBody)
    (rest : List PyStmt) (r : PyBody) :
    (extractFunctions (PyStmt.asyncFunctionDef n b :: rest)).length =
      (extractFunctions b.toList).length + (extractFunctions rest).length ∧
    directMethods (PyBody.cons (PyStmt.asyncFunctionDef n b) r) =
      directMethods r := by
  constructor
  · rw [length_extractFunctions, length_extractFunctions,
      length_extractFunctions]
    simp [PyStmt.countFnDefs, PyBody.countFnDefs_toList]
  · simp [directMethods, PyBody.toList, methodRecordOf]

/-- C7 counterexample: on a filesystem with no files at all, running the
tool on the nonexistent source path "missing" raises nothing — collection
returns the empty sequence, the run continues with an empty Analysis
Model and no diagnostics, and generation still proceeds — refuting the
claim that a nonexistent source path is propagated as a fatal error
rather than the run continuing with nothing to analyze. -/
theorem missing_source_path_cex :
    collect ⟨[]⟩ "missing" = [] ∧
    (IntegrationTestHelper.generate genStub ⟨[]⟩ [] "missing" "tests").analysis
      = emptyAnalysis ∧
    (IntegrationTestHelper.generate genStub ⟨[]⟩ [] "missing"
        "tests").diagnostics = [] ∧
    (IntegrationTestHelper.generate genStub ⟨[]⟩ [] "missing"
        "tests").generated = ["tests/test_integration.py"] :=
  ⟨rfl, rfl, rfl, rfl⟩

/-- C7 amended: when the given top-level source path does not exist
(`Path.is_file()` is false and nothing lies beneath it), no error is
raised or propagated: collection yields the empty sequence and the run
continues with an empty Analysis Model, no diagnostics, and the generator
invoked on the empty model. -/
theorem missing_source_path_run_continues (gen : GeneratorFn) (fs : FS)
    (dirs : List String) (sourcePath outputPath : String)
    (h1 : fs.isFile sourcePath = false)
    (h2 : ∀ q ∈ fs.pyFiles, q.1.startsWith (sourcePath ++ "/") = false) :
    collect fs sourcePath = [] ∧
    IntegrationTestHelper.generate gen fs dirs sourcePath outputPath =
      { analysis := emptyAnalysis, diagnostics := [],
        dirsAfterMkdir := mkdirParents dirs outputPath,
        generated := gen (mkdirParents dirs outputPath) emptyAnalysis
          outputPath } := by
  have hcol : collect fs sourcePath = [] := by
    unfold collect
    rw [h1]
    simp only [Bool.false_eq_true, if_false]
    rw [List.filter_eq_nil_iff]
    intro p hp
    obtain ⟨q, hq, hq1⟩ := List.mem_map.mp hp
    simp [← hq1, h2 q hq]
  refine ⟨hcol, ?_⟩
  unfold IntegrationTestHelper.generate
  rw [hcol]
  rfl

/-- Witness for the amended C7 at the concrete empty filesystem. -/
theorem missing_source_path_run_continues_witness :
    (FS.isFile ⟨[]⟩ "missing" = false) ∧
    (∀ q ∈ (FS.mk []).pyFiles, q.1.startsWith ("missing" ++ "/") = false) ∧
    (collect ⟨[]⟩ "missing" = [] ∧
      IntegrationTestHelper.generate genStub ⟨[]⟩ [] "missing" "tests" =
        { analysis := emptyAnalysis, diagnostics := [],
          dirsAfterMkdir := mkdirParents [] "tests",
          generated := genStub (mkdirParents [] "tests") emptyAnalysis
            "tests" }) :=
  ⟨rfl, by simp,
    missing_source_path_run_continues genStub ⟨[]⟩ [] "missing" "tests" rfl
      (by simp)⟩

/-- C8 counterexample: with no directories existing beforehand, the core
itself brings the destination "tests" into existence during
`generate` (line `output_path.mkdir(parents=True, exist_ok=True)`), so
the destination is not required to already exist at the time the
generator collaborator is invoked — refuting the claim that directory
creation stays outside the core. -/
theorem output_dir_created_by_core_cex :
    ("tests" ∉ ([] : List String)) ∧
    (IntegrationTestHelper.generate genStub ⟨[]⟩ [] "src"
        "tests").dirsAfterMkdir = ["tests"] :=
  ⟨by simp, rfl⟩

/-- C8 amended: the core creates the output destination itself — 
`generate` performs `mkdir(parents=True, exist_ok=True)` on the output
path before invoking the generator collaborator, so the destination
exists at the time of the `generate(model, destination)` call whether or
not the caller created it, and the generator is invoked against that
post-mkdir directory state. -/
theorem output_dir_created_by_core (gen : GeneratorFn) (fs : FS)
    (dirs : List String) (sourcePath outputPath : String) :
    (IntegrationTestHelper.generate gen fs dirs sourcePath
        outputPath).dirsAfterMkdir = mkdirParents dirs outputPath ∧
    outputPath ∈ (IntegrationTestHelper.generate gen fs dirs sourcePath
        outputPath).dirsAfterMkdir ∧
    (IntegrationTestHelper.generate gen fs dirs sourcePath
        outputPath).generated =
      gen (mkdirParents dirs outputPath)
        (IntegrationTestHelper.generate gen fs dirs sourcePath
          outputPath).analysis outputPath := by
  refine ⟨rfl, ?_, rfl⟩
  show outputPath ∈ mkdirParents dirs outputPath
  unfold mkdirParents
  split
  · assumption
  · simp

/-- C1 (code evaluated at the failing input): a directory whose single
file parses successfully and declares one function is fully processed —
its Function Record lands in `functions` and no diagnostic is printed —
yet the Analysis Model's `files` field is still empty: the code
initialises `analysis["files"]` but never appends to it, contradicting
the documented role of `files` as the list of successfully processed
files. -/
theorem files_field_never_populated :
    (extractAll [exampleFile]).1.functions = [FuncInfo.mk "f" []] ∧
    (extractAll [exampleFile]).2 = [] ∧
    (extractAll [exampleFile]).1.files = [] := by
  refine ⟨?_, ?_, ?_⟩ <;>
    simp [extractAll, extractLoop, processFile, exampleFile,
      extractFunctions, extractClasses, extractImports, astWalk,
      PyStmt.children, PyBody.toList, funcRecordOf, classRecordOf,
      importRecordsOf, emptyAnalysis]
